import Mathlib

/-!
Verification of the mssql-mcp-server core: the read-only query gatekeeper
and executor (QueryExecutor in src/database/query.ts, provided unnamed) and
the schema metadata resolver (SchemaDiscovery in src/database/schema.ts).

JavaScript strings are embedded as `List Char`; each JS string primitive the
code uses (trim, toLowerCase, includes, startsWith, split, the two comment
regexes and the leading-SELECT replacement regex) is given an executable
Lean counterpart with the same semantics on the inputs the code handles.
-/

namespace MssqlMcp

/-- Shorthand: the character list of a string literal. -/
def str (s : String) : List Char := s.data

/-- The whitespace class used by JS `trim` and `\s` (ASCII fragment). -/
def jsIsSpace (c : Char) : Bool :=
  c = ' ' || c = '\t' || c = '\n' || c = '\r' || c = '\x0b' || c = '\x0c'

/-- JS `toLowerCase` on ASCII text (Char.toLower is exactly the A-Z map). -/
def strLower (s : List Char) : List Char := s.map Char.toLower

/-- Drop leading whitespace. -/
def trimLeft : List Char → List Char
  | [] => []
  | c :: cs => if jsIsSpace c then trimLeft cs else c :: cs

/-- JS `String.prototype.trim`: drop leading and trailing whitespace. -/
def jsTrim (s : List Char) : List Char :=
  trimLeft (trimLeft s.reverse).reverse

/-- JS `String.prototype.includes`: substring containment. -/
def jsIncludes (hay needle : List Char) : Bool :=
  match hay with
  | [] => needle.isEmpty
  | _ :: t => needle.isPrefixOf hay || jsIncludes t needle

/-- Drop everything from the first `--` to the end (one line of the
single-line-comment regex `--.*$` with the m flag). -/
def dropLineComment : List Char → List Char
  | [] => []
  | '-' :: '-' :: _ => []
  | c :: cs => c :: dropLineComment cs

/-- JS replace of the pattern dash-dash-dot-star-dollar with g and m flags:
per line (split on newline), drop from the first `--` onward. -/
def removeLineComments (s : List Char) : List Char :=
  List.intercalate ['\n'] ((s.splitOn '\n').map dropLineComment)

/-- Scan for the first `*/` and return the remainder after it, if any. -/
def findBlockCommentClose : List Char → Option (List Char)
  | [] => none
  | [_] => none
  | c :: c2 :: cs =>
      if c = '*' && c2 = '/' then some cs
      else findBlockCommentClose (c2 :: cs)

theorem findBlockCommentClose_length :
    ∀ s t, findBlockCommentClose s = some t → t.length < s.length := by
  intro s
  induction s with
  | nil => intro t h; simp [findBlockCommentClose] at h
  | cons c cs ih =>
      intro t h
      cases cs with
      | nil => simp [findBlockCommentClose] at h
      | cons c2 cs2 =>
          rw [findBlockCommentClose] at h
          split at h
          · injection h with h
            subst h
            simp
            omega
          · have := ih t h
            simp at this ⊢
            omega

/-- JS `replace(/\/\*[\s\S]*?\*\//g, '')`: repeatedly delete the leftmost
`/*`, lazily matched up to the nearest following `*/`; a `/*` with no
closing `*/` (and hence everything after it) is left untouched. -/
def removeBlockComments : List Char → List Char
  | [] => []
  | [c] => [c]
  | c :: c2 :: cs =>
      if c = '/' && c2 = '*' then
        match h : findBlockCommentClose cs with
        | some rest2 => removeBlockComments rest2
        | none => c :: c2 :: cs
      else c :: removeBlockComments (c2 :: cs)
termination_by s => s.length
decreasing_by
  · have := findBlockCommentClose_length cs rest2 h
    simp
    omega
  · simp

/-- QueryExecutor.removeComments: single-line comments first, block
comments second. -/
def removeComments (query : List Char) : List Char :=
  removeBlockComments (removeLineComments query)

/-- First token of `trimmed.split(/\s+/)`: the maximal leading run of
non-whitespace characters of the trimmed text (empty for blank text). -/
def firstWord (s : List Char) : List Char :=
  (jsTrim s).takeWhile (fun c => !jsIsSpace c)

/-- The denylist in QueryExecutor.validateReadOnlyQuery, in source order. -/
def forbiddenKeywords : List (List Char) :=
  [str "insert", str "update", str "delete", str "drop", str "create",
   str "alter", str "truncate", str "merge", str "exec", str "execute",
   str "sp_", str "xp_", str "bulk", str "openrowset", str "opendatasource"]

/-- The first denylisted keyword occurring in the normalized query, if any
(source loop order). -/
def findForbidden (normalized : List Char) : Option (List Char) :=
  forbiddenKeywords.find? (fun k => jsIncludes normalized k)

/-- The rejection message naming a forbidden keyword. -/
def forbiddenMessage (k : List Char) : List Char :=
  str "Query contains forbidden keyword: " ++ k ++
    str ". Only SELECT statements are allowed."

/-- The rejection message for a non-SELECT, non-WITH leading statement. -/
def notSelectMessage : List Char :=
  str "Only SELECT statements and CTEs (WITH clause) are allowed."

/-- QueryExecutor.validateReadOnlyQuery: normalize (trim + lowercase), scan
the denylist as literal substrings, then require the first
comment-stripped token to be `select` or `with`; a thrown Error is
modelled as `Except.error` of its message. -/
def validateReadOnlyQuery (query : List Char) : Except (List Char) Unit :=
  let normalizedQuery := strLower (jsTrim query)
  match findForbidden normalizedQuery with
  | some k => .error (forbiddenMessage k)
  | none =>
      let firstW := firstWord (removeComments normalizedQuery)
      if firstW = str "select" || firstW = str "with" then .ok ()
      else .error notSelectMessage

/-- The JS `||` default: `x || d` with 0 falsy. -/
def jsOrDefault (x : Option Nat) (d : Nat) : Nat :=
  match x with
  | none => d
  | some n => if n = 0 then d else n

/-- The regex replacement `query.replace(/^(\s*select\s+)/i, "$1TOP n ")`:
when the text is leading-whitespace, a case-insensitive `select`, and at
least one whitespace character, insert `TOP n ` after that prefix;
otherwise return the text unchanged. -/
def jsInsertTopAfterSelect (query : List Char) (maxRows : Nat) : List Char :=
  let ws := query.takeWhile jsIsSpace
  let rest1 := query.dropWhile jsIsSpace
  let sel := rest1.take 6
  let rest2 := rest1.drop 6
  let ws2 := rest2.takeWhile jsIsSpace
  let rest3 := rest2.dropWhile jsIsSpace
  if strLower sel = str "select" && !ws2.isEmpty then
    ws ++ sel ++ ws2 ++ str "TOP " ++ (toString maxRows).data ++ [' '] ++ rest3
  else query

/-- QueryExecutor.addRowLimit: leave queries with an existing `top ` /
`top(` untouched; insert a TOP clause after the leading `select `; leave
everything else (CTEs included) unchanged. -/
def addRowLimit (query : List Char) (maxRows : Nat) : List Char :=
  let normalizedQuery := strLower (jsTrim query)
  if jsIncludes normalizedQuery (str "top ") ||
     jsIncludes normalizedQuery (str "top(") then query
  else if (str "select ").isPrefixOf normalizedQuery then
    jsInsertTopAfterSelect query maxRows
  else query

/-! ## Query executor

The mssql connection pool is modelled as an `Accessor`: a function from
query text to either an engine error message or a raw recordset (which the
driver may leave undefined, hence `Option`). `Date.now()` readings are
modelled by two explicit clock values `t0` (taken at the start) and `t1`
(taken when the round-trip finishes, on success and failure alike); a JS
number difference is an `Int`. Each operation also returns the list of
query texts it dispatched to the pool, so that "no database round-trip
occurs" is a statement about that trace. -/

/-- A raw driver recordset: ordered column names and the row count. -/
structure RawRecordset where
  columns : List (List Char)
  rowsLen : Nat
  deriving DecidableEq

/-- The connection pool as seen by the executor. -/
structure Accessor where
  run : List Char → Except (List Char) (Option RawRecordset)

/-- QueryOptions from query.ts (maxRows?, timeout?). -/
structure QueryOptions where
  maxRows : Option Nat := none
  timeout : Option Nat := none
  deriving DecidableEq

/-- The QueryResult record produced by executeQuery. -/
structure QueryResultM where
  columns : List (List Char)
  rowCount : Nat
  executionTime : Int
  deriving DecidableEq

/-- Errors thrown by executeQuery: the policy rejection from
validateReadOnlyQuery, or the wrapped engine failure, which embeds the
measured execution time in its message. -/
inductive ExecError where
  | policyViolation (reason : List Char)
  | databaseError (executionTimeMs : Int) (message : List Char)
  deriving DecidableEq

/-- The wrapped engine-failure message built in the catch branch. -/
def databaseErrorMessage (t : Int) (msg : List Char) : List Char :=
  str "Query execution failed (" ++ (toString t).data ++ str "ms): " ++ msg

/-- QueryExecutor.executeQuery: validate, clamp the row cap (JS `||`
making 0 fall back to the default, then `Math.min` with 1000), rewrite
with addRowLimit, dispatch once, and report timing on both paths. Returns
the outcome together with the dispatched-query trace. -/
def executeQuery (acc : Accessor) (query : List Char) (opts : QueryOptions)
    (t0 t1 : Nat) : Except ExecError QueryResultM × List (List Char) :=
  match validateReadOnlyQuery query with
  | .error reason => (.error (.policyViolation reason), [])
  | .ok () =>
      let maxRows := min (jsOrDefault opts.maxRows 1000) 1000
      let modifiedQuery := addRowLimit query maxRows
      match acc.run modifiedQuery with
      | .ok rs =>
          let executionTime : Int := (t1 : Int) - (t0 : Int)
          match rs with
          | some r =>
              (.ok { columns := r.columns, rowCount := r.rowsLen,
                     executionTime := executionTime }, [modifiedQuery])
          | none =>
              (.ok { columns := [], rowCount := 0,
                     executionTime := executionTime }, [modifiedQuery])
      | .error msg =>
          let executionTime : Int := (t1 : Int) - (t0 : Int)
          (.error (.databaseError executionTime
                     (databaseErrorMessage executionTime msg)),
           [modifiedQuery])

/-! ## Session-state toggles (explain / statistics) -/

/-- The session-level modes the executor toggles via SET commands. -/
structure SessionState where
  showplanAll : Bool
  statisticsIo : Bool
  statisticsTime : Bool
  deriving DecidableEq

/-- QueryExecutor.explainQuery: SET SHOWPLAN_ALL ON, run the query, SET
SHOWPLAN_ALL OFF — the three calls are written in sequence inside a try
with no finally, so when the query itself fails the catch branch rethrows
without ever issuing the OFF command. Returns the outcome and the final
session state. -/
def explainQuery (acc : List Char → Except (List Char) (List RawRecordset))
    (s : SessionState) (query : List Char) :
    Except (List Char) (List RawRecordset) × SessionState :=
  match validateReadOnlyQuery query with
  | .error reason => (.error reason, s)
  | .ok () =>
      let s1 : SessionState := { s with showplanAll := true }
      match acc query with
      | .ok rows =>
          let s2 : SessionState := { s1 with showplanAll := false }
          (.ok rows, s2)
      | .error msg =>
          (.error (str "Failed to get query execution plan: " ++ msg), s1)

/-- The statistics record returned by getQueryStatistics. -/
structure QueryStats where
  logicalReads : Nat
  physicalReads : Nat
  cpuTime : Nat
  elapsedTime : Int
  deriving DecidableEq

/-- QueryExecutor.getQueryStatistics: SET STATISTICS IO/TIME ON, run the
query under timing, SET STATISTICS IO/TIME OFF, and return a record whose
read/cpu fields are the hard-coded zeros of the source (only elapsedTime
is measured). As in explainQuery, the OFF commands sit after the query
inside the try, so a failing query leaves both modes on. -/
def getQueryStatistics (acc : List Char → Except (List Char) Unit)
    (s : SessionState) (query : List Char) (t0 t1 : Nat) :
    Except (List Char) QueryStats × SessionState :=
  match validateReadOnlyQuery query with
  | .error reason => (.error reason, s)
  | .ok () =>
      let s1 : SessionState := { s with statisticsIo := true }
      let s2 : SessionState := { s1 with statisticsTime := true }
      match acc query with
      | .ok () =>
          let s3 : SessionState := { s2 with statisticsIo := false }
          let s4 : SessionState := { s3 with statisticsTime := false }
          (.ok { logicalReads := 0, physicalReads := 0, cpuTime := 0,
                 elapsedTime := (t1 : Int) - (t0 : Int) }, s4)
      | .error msg =>
          (.error (str "Failed to get query statistics: " ++ msg), s2)

/-! ## Schema metadata resolver (SchemaDiscovery, src/database/schema.ts)

The catalog accessor is modelled as the fixed responses the pool gives to
the five parameterized queries getTableSchema issues: the table/view
lookup, the supplementary COUNT, and the column/index/foreign-key facet
queries (each of the last four an `Except`, since an awaited driver call
may throw). `getTableSchema` returns its outcome together with the trace
of catalog queries it issued, in order. -/

/-- JS `Boolean` on a SQL 0/1 flag. -/
def jsBool (n : Nat) : Bool := n ≠ 0

/-- A row of the table/view existence query. -/
structure CatalogTableRow where
  schema : List Char
  name : List Char
  type : List Char
  deriving DecidableEq

/-- A raw row of the column facet query (flags still 0/1 as delivered). -/
structure ColumnRow where
  name : List Char
  dataType : List Char
  maxLength : Option Nat
  isNullable : Nat
  isPrimaryKey : Nat
  isForeignKey : Nat
  defaultValue : Option (List Char)
  description : Option (List Char)
  deriving DecidableEq

/-- The ColumnInfo record assembled by getTableColumns. -/
structure ColumnInfo where
  name : List Char
  dataType : List Char
  maxLength : Option Nat
  isNullable : Bool
  isPrimaryKey : Bool
  isForeignKey : Bool
  defaultValue : Option (List Char)
  description : Option (List Char)
  deriving DecidableEq

/-- A raw row of the index facet query: the key columns arrive as one
STRING_AGG aggregate in key-ordinal order. -/
structure IndexRow where
  indexName : List Char
  columns : List Char
  isUnique : Bool
  isPrimaryKey : Bool
  deriving DecidableEq

/-- The IndexInfo record assembled by getTableIndexes. -/
structure IndexInfo where
  name : List Char
  columns : List (List Char)
  isUnique : Bool
  isPrimaryKey : Bool
  deriving DecidableEq

/-- The ForeignKeyInfo record (the facet query already returns one row per
constraint column). -/
structure ForeignKeyInfo where
  name : List Char
  column : List Char
  referencedTable : List Char
  referencedColumn : List Char
  referencedSchema : List Char
  deriving DecidableEq

/-- The TableInfo record; rowCount stays `none` unless the supplementary
count succeeds. -/
structure TableInfo where
  schema : List Char
  name : List Char
  type : List Char
  rowCount : Option Nat
  deriving DecidableEq

/-- The aggregate TableSchema record. -/
structure TableSchema where
  table : TableInfo
  columns : List ColumnInfo
  indexes : List IndexInfo
  foreignKeys : List ForeignKeyInfo
  deriving DecidableEq

/-- The catalog accessor's responses to getTableSchema's five queries. -/
structure Catalog where
  lookupResult : List CatalogTableRow
  rowCountResult : Except (List Char) Nat
  columnsResult : Except (List Char) (List ColumnRow)
  indexesResult : Except (List Char) (List IndexRow)
  foreignKeysResult : Except (List Char) (List ForeignKeyInfo)

/-- Which catalog query a step of getTableSchema dispatched. -/
inductive CatalogQuery where
  | tableLookup
  | rowCount
  | columnFacet
  | indexFacet
  | foreignKeyFacet
  deriving DecidableEq

/-- Split off the first occurrence of `sep`: `some (a, b)` with the input
equal to `a ++ sep ++ b` and `a` minimal, or `none` if `sep` is absent. -/
def breakOnSep (sep : List Char) : List Char → Option (List Char × List Char)
  | [] => none
  | c :: cs =>
      if sep.isPrefixOf (c :: cs) then some ([], (c :: cs).drop sep.length)
      else
        match breakOnSep sep cs with
        | some (a, b) => some (c :: a, b)
        | none => none

theorem breakOnSep_length (sep : List Char) (hsep : sep ≠ []) :
    ∀ s a b, breakOnSep sep s = some (a, b) → b.length < s.length := by
  intro s
  induction s with
  | nil => intro a b h; simp [breakOnSep] at h
  | cons c cs ih =>
      intro a b h
      rw [breakOnSep] at h
      split at h
      · injection h with h
        rw [Prod.ext_iff] at h
        obtain ⟨-, hb⟩ := h
        subst hb
        have : 1 ≤ sep.length := by
          cases sep with
          | nil => exact absurd rfl hsep
          | cons x xs => simp
        simp [List.length_drop]
        omega
      · split at h
        next a0 b0 heq =>
            injection h with h
            rw [Prod.ext_iff] at h
            obtain ⟨-, hb⟩ := h
            subst hb
            have := ih a0 _ heq
            simp
            omega
        next => cases h

/-- JS `String.prototype.split` with a nonempty string separator. -/
def splitOnSep (sep : List Char) (hsep : sep ≠ []) (s : List Char) :
    List (List Char) :=
  match h : breakOnSep sep s with
  | none => [s]
  | some (a, b) => a :: splitOnSep sep hsep b
termination_by s.length
decreasing_by
  exact breakOnSep_length sep hsep s _ _ h

/-- The `", "` separator of the index-column aggregate is nonempty. -/
theorem commaSpace_ne_nil : str ", " ≠ [] := by decide

/-- getTableColumns' row mapping (Boolean on the 0/1 flags). -/
def mapColumnRow (r : ColumnRow) : ColumnInfo :=
  { name := r.name, dataType := r.dataType, maxLength := r.maxLength,
    isNullable := jsBool r.isNullable, isPrimaryKey := jsBool r.isPrimaryKey,
    isForeignKey := jsBool r.isForeignKey, defaultValue := r.defaultValue,
    description := r.description }

/-- getTableIndexes' row mapping: split the aggregated column list on
`", "`, preserving the aggregate's order. -/
def mapIndexRow (r : IndexRow) : IndexInfo :=
  { name := r.indexName,
    columns := splitOnSep (str ", ") commaSpace_ne_nil r.columns,
    isUnique := r.isUnique, isPrimaryKey := r.isPrimaryKey }

/-- The not-found message thrown by getTableSchema. -/
def tableNotFoundMessage (schemaName tableName : List Char) : List Char :=
  str "Table " ++ schemaName ++ [ '.' ] ++ tableName ++ str " not found"

/-- SchemaDiscovery.getTableSchema: look the pair up among tables and
views; throw if absent; for a USER_TABLE try the supplementary COUNT,
swallowing its failure; then fetch and map the three facets, propagating
their failures. Returns the outcome and the trace of issued queries. -/
def getTableSchema (cat : Catalog) (schemaName tableName : List Char) :
    Except (List Char) TableSchema × List CatalogQuery :=
  match cat.lookupResult with
  | [] => (.error (tableNotFoundMessage schemaName tableName),
           [CatalogQuery.tableLookup])
  | row :: _ =>
      let base : TableInfo :=
        { schema := row.schema, name := row.name, type := row.type,
          rowCount := none }
      let withCount : TableInfo × List CatalogQuery :=
        if base.type = str "USER_TABLE" then
          match cat.rowCountResult with
          | .ok n => ({ base with rowCount := some n },
                      [CatalogQuery.tableLookup, CatalogQuery.rowCount])
          | .error _ => (base,
                      [CatalogQuery.tableLookup, CatalogQuery.rowCount])
        else (base, [CatalogQuery.tableLookup])
      match cat.columnsResult with
      | .error e => (.error e, withCount.2 ++ [CatalogQuery.columnFacet])
      | .ok colRows =>
          match cat.indexesResult with
          | .error e =>
              (.error e, withCount.2 ++
                 [CatalogQuery.columnFacet, CatalogQuery.indexFacet])
          | .ok idxRows =>
              match cat.foreignKeysResult with
              | .error e =>
                  (.error e, withCount.2 ++
                     [CatalogQuery.columnFacet, CatalogQuery.indexFacet,
                      CatalogQuery.foreignKeyFacet])
              | .ok fkRows =>
                  (.ok { table := withCount.1,
                         columns := colRows.map mapColumnRow,
                         indexes := idxRows.map mapIndexRow,
                         foreignKeys := fkRows },
                   withCount.2 ++
                     [CatalogQuery.columnFacet, CatalogQuery.indexFacet,
                      CatalogQuery.foreignKeyFacet])

/-- Modelled from the spec (section 3 invariant, for comparison with what
the code returns): every column named by an index descriptor or a
foreign-key descriptor exists, by name, in the schema's column list. -/
def schemaConsistent (s : TableSchema) : Bool :=
  s.indexes.all (fun i =>
    i.columns.all (fun c => s.columns.any (fun col => col.name = c))) &&
  s.foreignKeys.all (fun fk =>
    s.columns.any (fun col => col.name = fk.column))

/-! ## Infrastructure lemmas -/

theorem ne_of_toNat_ne {c d : Char} (h : c.toNat ≠ d.toNat) : c ≠ d :=
  fun he => h (congrArg Char.toNat he)

theorem toNat_ofNat_valid (n : Nat) (h : n < 55296) :
    (Char.ofNat n).toNat = n := by
  unfold Char.ofNat
  split
  · rfl
  · rename_i hx
    exact absurd (Or.inl h) hx

/-- JS `toLowerCase` maps whitespace to whitespace and non-whitespace to
non-whitespace. -/
theorem jsIsSpace_toLower (c : Char) : jsIsSpace c.toLower = jsIsSpace c := by
  unfold Char.toLower
  simp only []
  by_cases hr : c.toNat ≥ 65 ∧ c.toNat ≤ 90
  · rw [if_pos hr]
    have hv : (Char.ofNat (c.toNat + 32)).toNat = c.toNat + 32 :=
      toNat_ofNat_valid _ (by omega)
    obtain ⟨hr1, hr2⟩ := hr
    have hA : jsIsSpace (Char.ofNat (c.toNat + 32)) = false := by
      unfold jsIsSpace
      have n1 : Char.ofNat (c.toNat + 32) ≠ ' ' :=
        ne_of_toNat_ne (by rw [hv, show (' ' : Char).toNat = 32 from rfl]; omega)
      have n2 : Char.ofNat (c.toNat + 32) ≠ '\t' :=
        ne_of_toNat_ne (by rw [hv, show ('\t' : Char).toNat = 9 from rfl]; omega)
      have n3 : Char.ofNat (c.toNat + 32) ≠ '\n' :=
        ne_of_toNat_ne (by rw [hv, show ('\n' : Char).toNat = 10 from rfl]; omega)
      have n4 : Char.ofNat (c.toNat + 32) ≠ '\r' :=
        ne_of_toNat_ne (by rw [hv, show ('\r' : Char).toNat = 13 from rfl]; omega)
      have n5 : Char.ofNat (c.toNat + 32) ≠ '\x0b' :=
        ne_of_toNat_ne (by rw [hv, show ('\x0b' : Char).toNat = 11 from rfl]; omega)
      have n6 : Char.ofNat (c.toNat + 32) ≠ '\x0c' :=
        ne_of_toNat_ne (by rw [hv, show ('\x0c' : Char).toNat = 12 from rfl]; omega)
      simp [n1, n2, n3, n4, n5, n6]
    have hB : jsIsSpace c = false := by
      unfold jsIsSpace
      have n1 : c ≠ ' ' :=
        ne_of_toNat_ne (by rw [show (' ' : Char).toNat = 32 from rfl]; omega)
      have n2 : c ≠ '\t' :=
        ne_of_toNat_ne (by rw [show ('\t' : Char).toNat = 9 from rfl]; omega)
      have n3 : c ≠ '\n' :=
        ne_of_toNat_ne (by rw [show ('\n' : Char).toNat = 10 from rfl]; omega)
      have n4 : c ≠ '\r' :=
        ne_of_toNat_ne (by rw [show ('\r' : Char).toNat = 13 from rfl]; omega)
      have n5 : c ≠ '\x0b' :=
        ne_of_toNat_ne (by rw [show ('\x0b' : Char).toNat = 11 from rfl]; omega)
      have n6 : c ≠ '\x0c' :=
        ne_of_toNat_ne (by rw [show ('\x0c' : Char).toNat = 12 from rfl]; omega)
      simp [n1, n2, n3, n4, n5, n6]
    rw [hA, hB]
  · rw [if_neg hr]

theorem trimLeft_map_toLower (s : List Char) :
    trimLeft (s.map Char.toLower) = (trimLeft s).map Char.toLower := by
  induction s with
  | nil => rfl
  | cons c cs ih =>
      rw [List.map_cons, trimLeft, trimLeft, jsIsSpace_toLower]
      by_cases h : jsIsSpace c = true
      · rw [if_pos h, if_pos h, ih]
      · rw [if_neg h, if_neg h, List.map_cons]

/-- Lowercasing commutes with trimming. -/
theorem strLower_jsTrim (q : List Char) :
    strLower (jsTrim q) = jsTrim (strLower q) := by
  unfold strLower jsTrim
  rw [← List.map_reverse, trimLeft_map_toLower, ← List.map_reverse,
    trimLeft_map_toLower]

/-- The `includes` boolean is exactly list-infix containment. -/
theorem jsIncludes_iff (hay needle : List Char) :
    jsIncludes hay needle = true ↔ needle <:+: hay := by
  induction hay with
  | nil =>
      rw [jsIncludes, List.isEmpty_iff, List.infix_nil]
  | cons c t ih =>
      rw [jsIncludes, Bool.or_eq_true, List.isPrefixOf_iff_prefix, ih,
        List.infix_cons_iff]

/-- A fully non-whitespace infix survives left trimming. -/
theorem infix_trimLeft (k s : List Char) (hk : ∀ c ∈ k, jsIsSpace c = false)
    (h : k <:+: s) : k <:+: trimLeft s := by
  induction s with
  | nil =>
      rw [List.infix_nil] at h
      subst h
      exact List.nil_infix
  | cons c cs ih =>
      rw [List.infix_cons_iff] at h
      rcases h with h | h
      · cases k with
        | nil => exact List.nil_infix
        | cons k0 ks =>
            have hc : c = k0 := by
              rcases h with ⟨t, ht⟩
              simpa using congrArg (fun l => l.head?) ht.symm
            have : jsIsSpace c = false := hc ▸ hk k0 (by simp)
            rw [trimLeft, if_neg (by simp [this])]
            exact h.isInfix
      · have h2 := ih h
        rw [trimLeft]
        by_cases hc : jsIsSpace c = true
        · rw [if_pos hc]; exact h2
        · rw [if_neg hc]
          exact h.trans (List.infix_cons List.infix_rfl)

/-- A fully non-whitespace infix survives trimming on both ends. -/
theorem infix_jsTrim (k s : List Char) (hk : ∀ c ∈ k, jsIsSpace c = false)
    (h : k <:+: s) : k <:+: jsTrim s := by
  unfold jsTrim
  have h1 : k.reverse <:+: s.reverse := List.reverse_infix.mpr h
  have h2 : k.reverse <:+: trimLeft s.reverse :=
    infix_trimLeft _ _ (fun c hc => hk c (List.mem_reverse.mp hc)) h1
  have h3 : k <:+: (trimLeft s.reverse).reverse := by
    rw [← List.reverse_reverse k] at h2 ⊢
    exact List.reverse_infix.mpr (by simpa using h2)
  exact infix_trimLeft _ _ hk h3

/-- No denylisted keyword contains whitespace. -/
theorem forbiddenKeywords_nonspace :
    forbiddenKeywords.all (fun k => k.all (fun c => !jsIsSpace c)) = true := by
  decide

/-! ## Claim theorems -/

/-- C2: every query text containing a denylisted keyword as a
case-insensitive substring anywhere in the text is rejected by the
gatekeeper, with a denylisted keyword that occurs in the normalized text
named in the rejection reason, and executeQuery dispatches nothing to the
database (empty trace). -/
theorem denylist_rejects (acc : Accessor) (opts : QueryOptions)
    (q k : List Char) (t0 t1 : Nat)
    (hk : k ∈ forbiddenKeywords)
    (hinc : jsIncludes (strLower q) k = true) :
    ∃ k2 reason, k2 ∈ forbiddenKeywords ∧
      jsIncludes (strLower (jsTrim q)) k2 = true ∧
      validateReadOnlyQuery q = .error reason ∧
      reason = forbiddenMessage k2 ∧
      jsIncludes reason k2 = true ∧
      executeQuery acc q opts t0 t1 = (.error (.policyViolation reason), []) := by
  have hknosp : ∀ c ∈ k, jsIsSpace c = false := by
    have h := List.all_eq_true.mp forbiddenKeywords_nonspace k hk
    intro c hc
    have h2 := List.all_eq_true.mp h c hc
    simpa using h2
  have h1 : k <:+: strLower q := (jsIncludes_iff _ _).mp hinc
  have h2 : k <:+: jsTrim (strLower q) := infix_jsTrim _ _ hknosp h1
  have h3 : jsIncludes (strLower (jsTrim q)) k = true := by
    rw [strLower_jsTrim]
    exact (jsIncludes_iff _ _).mpr h2
  have hsome : (findForbidden (strLower (jsTrim q))).isSome := by
    rw [findForbidden, List.find?_isSome]
    exact ⟨k, hk, h3⟩
  obtain ⟨k2, hk2⟩ := Option.isSome_iff_exists.mp hsome
  have hk2mem : k2 ∈ forbiddenKeywords := List.mem_of_find?_eq_some hk2
  have hk2inc : jsIncludes (strLower (jsTrim q)) k2 = true :=
    List.find?_some hk2
  have hval : validateReadOnlyQuery q = .error (forbiddenMessage k2) := by
    rw [validateReadOnlyQuery]
    simp only [hk2]
  refine ⟨k2, forbiddenMessage k2, hk2mem, hk2inc, hval, rfl, ?_, ?_⟩
  · rw [jsIncludes_iff, forbiddenMessage]
    exact ⟨str "Query contains forbidden keyword: ",
      str ". Only SELECT statements are allowed.", by simp⟩
  · rw [executeQuery]
    simp only [hval]

/-- C2 witness: a concrete DROP statement is rejected without any database
dispatch. -/
theorem denylist_rejects_witness :
    ∃ k2 reason, k2 ∈ forbiddenKeywords ∧
      jsIncludes (strLower (jsTrim (str "DROP TABLE users"))) k2 = true ∧
      validateReadOnlyQuery (str "DROP TABLE users") = .error reason ∧
      reason = forbiddenMessage k2 ∧
      jsIncludes reason k2 = true ∧
      executeQuery ⟨fun _ => .ok none⟩ (str "DROP TABLE users")
          ⟨none, none⟩ 0 7 =
        (.error (.policyViolation reason), []) :=
  denylist_rejects ⟨fun _ => .ok none⟩ ⟨none, none⟩
    (str "DROP TABLE users") (str "drop") 0 7 (by decide) (by decide)

/-- C3: every query whose comment-stripped, trimmed, lowercased leading
token is neither `select` nor `with` is rejected by the gatekeeper. -/
theorem leading_token_rejects (q : List Char)
    (h1 : firstWord (removeComments (strLower (jsTrim q))) ≠ str "select")
    (h2 : firstWord (removeComments (strLower (jsTrim q))) ≠ str "with") :
    (validateReadOnlyQuery q).isOk = false := by
  rw [validateReadOnlyQuery]
  cases hf : findForbidden (strLower (jsTrim q)) with
  | some k =>
      simp only [hf]
      rfl
  | none =>
      simp only [hf, if_neg, h1, h2]
      rw [if_neg (by simp [h1, h2])]
      rfl

/-- C3 witness: SHOW TABLES (no denylisted keyword) is rejected. -/
theorem leading_token_rejects_witness :
    (validateReadOnlyQuery (str "SHOW TABLES")).isOk = false :=
  leading_token_rejects (str "SHOW TABLES")
    (by
      have h1 : removeLineComments (strLower (jsTrim (str "SHOW TABLES"))) =
          str "show tables" := by decide
      have h2 : removeBlockComments (str "show tables") = str "show tables" := by
        simp +decide [removeBlockComments, findBlockCommentClose, str]
      rw [removeComments, h1, h2]
      decide)
    (by
      have h1 : removeLineComments (strLower (jsTrim (str "SHOW TABLES"))) =
          str "show tables" := by decide
      have h2 : removeBlockComments (str "show tables") = str "show tables" := by
        simp +decide [removeBlockComments, findBlockCommentClose, str]
      rw [removeComments, h1, h2]
      decide)

theorem takeWhile_append_all (p : Char → Bool) (l1 l2 : List Char)
    (h : ∀ c ∈ l1, p c = true) :
    (l1 ++ l2).takeWhile p = l1 ++ l2.takeWhile p := by
  induction l1 with
  | nil => simp
  | cons c cs ih =>
      rw [List.cons_append, List.takeWhile_cons, h c (by simp),
        ih (fun d hd => h d (by simp [hd])), List.cons_append]
      simp

theorem dropWhile_append_all (p : Char → Bool) (l1 l2 : List Char)
    (h : ∀ c ∈ l1, p c = true) :
    (l1 ++ l2).dropWhile p = l2.dropWhile p := by
  induction l1 with
  | nil => simp
  | cons c cs ih =>
      rw [List.cons_append, List.dropWhile_cons, h c (by simp)]
      exact ih (fun d hd => h d (by simp [hd]))

theorem takeWhile_eq_nil_of_head (p : Char → Bool) (l : List Char)
    (h : ∀ c, l.head? = some c → p c = false) :
    l.takeWhile p = [] := by
  cases l with
  | nil => rfl
  | cons c cs =>
      rw [List.takeWhile_cons, h c (by simp)]
      simp

theorem dropWhile_eq_self_of_head (p : Char → Bool) (l : List Char)
    (h : ∀ c, l.head? = some c → p c = false) :
    l.dropWhile p = l := by
  cases l with
  | nil => rfl
  | cons c cs =>
      rw [List.dropWhile_cons, h c (by simp)]
      simp

/-- The leading-select replacement, characterized on any text decomposed
as whitespace, a case-insensitive select keyword, whitespace, and a
remainder: the clamped limit is inserted right after the keyword's
whitespace, everything else (case included) untouched. -/
theorem jsInsertTopAfterSelect_decomp
    (ws sel ws2 rest : List Char) (m : Nat)
    (hws : ∀ c ∈ ws, jsIsSpace c = true)
    (hsel : strLower sel = str "select")
    (hws2ne : ws2 ≠ [])
    (hws2 : ∀ c ∈ ws2, jsIsSpace c = true)
    (hrest : ∀ c, rest.head? = some c → jsIsSpace c = false) :
    jsInsertTopAfterSelect (ws ++ sel ++ ws2 ++ rest) m =
      ws ++ sel ++ ws2 ++ str "TOP " ++ (toString m).data ++ [' '] ++ rest := by
  have hsel6 : sel.length = 6 := by
    have h := congrArg List.length hsel
    simpa [strLower] using h
  have hselhead : ∀ c, sel.head? = some c → jsIsSpace c = false := by
    intro c hc
    cases sel with
    | nil => simp at hc
    | cons s0 ss =>
        have hc0 : c = s0 := by simpa using hc.symm
        have hlow : Char.toLower s0 = 's' := by
          have h := congrArg List.head? hsel
          rw [show (str "select").head? = some 's' from rfl] at h
          simpa [strLower] using h
        rw [hc0, ← jsIsSpace_toLower, hlow]
        rfl
  have hheadapp : ∀ c, (sel ++ (ws2 ++ rest)).head? = some c →
      jsIsSpace c = false := by
    intro c hc
    cases sel with
    | nil => simp [strLower, str] at hsel
    | cons s0 ss =>
        simp at hc
        exact hselhead c (by simp [hc])
  have h1 : (ws ++ (sel ++ (ws2 ++ rest))).takeWhile jsIsSpace = ws := by
    rw [takeWhile_append_all _ _ _ hws,
      takeWhile_eq_nil_of_head _ _ hheadapp, List.append_nil]
  have h2 : (ws ++ (sel ++ (ws2 ++ rest))).dropWhile jsIsSpace =
      sel ++ (ws2 ++ rest) := by
    rw [dropWhile_append_all _ _ _ hws,
      dropWhile_eq_self_of_head _ _ hheadapp]
  have h3 : (sel ++ (ws2 ++ rest)).take 6 = sel := List.take_left' hsel6
  have h4 : (sel ++ (ws2 ++ rest)).drop 6 = ws2 ++ rest := List.drop_left' hsel6
  have h5 : (ws2 ++ rest).takeWhile jsIsSpace = ws2 := by
    rw [takeWhile_append_all _ _ _ hws2,
      takeWhile_eq_nil_of_head _ _ hrest, List.append_nil]
  have h6 : (ws2 ++ rest).dropWhile jsIsSpace = rest := by
    rw [dropWhile_append_all _ _ _ hws2,
      dropWhile_eq_self_of_head _ _ hrest]
  rw [jsInsertTopAfterSelect]
  simp only [List.append_assoc, h1, h2, h3, h4, h5, h6]
  rw [if_pos (by simp [hsel, hws2ne])]

/-- The query text executeQuery dispatches once validation passes. -/
theorem executeQuery_dispatch (acc : Accessor) (q : List Char)
    (opts : QueryOptions) (t0 t1 : Nat)
    (hv : validateReadOnlyQuery q = .ok ()) :
    (executeQuery acc q opts t0 t1).2 =
      [addRowLimit q (min (jsOrDefault opts.maxRows 1000) 1000)] := by
  rw [executeQuery]
  simp only [hv]
  cases acc.run (addRowLimit q (min (jsOrDefault opts.maxRows 1000) 1000)) with
  | ok rs => cases rs <;> rfl
  | error msg => rfl

/-- Validation succeeds when no keyword matches and the comment-stripped
text leads with select. -/
theorem validateReadOnlyQuery_ok_of (q lc : List Char)
    (h1 : findForbidden (strLower (jsTrim q)) = none)
    (h2 : removeComments (strLower (jsTrim q)) = lc)
    (h3 : firstWord lc = str "select") :
    validateReadOnlyQuery q = .ok () := by
  rw [validateReadOnlyQuery]
  simp only [h1, h2, h3]
  simp

/-- A with-prefixed text is not select-prefixed. -/
theorem with_not_select (l : List Char)
    (hw : (str "with").isPrefixOf l = true) :
    (str "select ").isPrefixOf l = false := by
  obtain ⟨t, ht⟩ := List.isPrefixOf_iff_prefix.mp hw
  rw [← ht]
  rfl

/-- C4: for an allowed query with a positive requested row cap, the
dispatched text inserts the clamped limit min(maxRows, 1000) as a TOP
clause via the leading-select rewrite when no `top `/`top(` is present
and the trimmed lowercased text begins with `select `; with-prefixed
texts and texts already containing a limiting clause are dispatched
unchanged; the insertion goes immediately after the first select keyword
and its whitespace, preserving the surrounding text's case; any cap above
1000 clamps to exactly 1000. -/
theorem row_limit_rewrite (acc : Accessor) (q : List Char) (n t0 t1 : Nat)
    (hn : 1 ≤ n)
    (hv : validateReadOnlyQuery q = .ok ()) :
    ((jsIncludes (strLower (jsTrim q)) (str "top ") = false →
      jsIncludes (strLower (jsTrim q)) (str "top(") = false →
      (str "select ").isPrefixOf (strLower (jsTrim q)) = true →
      (executeQuery acc q ⟨some n, none⟩ t0 t1).2 =
        [jsInsertTopAfterSelect q (min n 1000)]) ∧
     ((str "with").isPrefixOf (strLower (jsTrim q)) = true →
      (executeQuery acc q ⟨some n, none⟩ t0 t1).2 = [q]) ∧
     ((jsIncludes (strLower (jsTrim q)) (str "top ") = true ∨
       jsIncludes (strLower (jsTrim q)) (str "top(") = true) →
      (executeQuery acc q ⟨some n, none⟩ t0 t1).2 = [q]) ∧
     (1000 < n → min n 1000 = 1000)) ∧
    (∀ ws sel ws2 rest m,
      (∀ c ∈ ws, jsIsSpace c = true) →
      strLower sel = str "select" →
      ws2 ≠ [] →
      (∀ c ∈ ws2, jsIsSpace c = true) →
      (∀ c, rest.head? = some c → jsIsSpace c = false) →
      jsInsertTopAfterSelect (ws ++ sel ++ ws2 ++ rest) m =
        ws ++ sel ++ ws2 ++ str "TOP " ++ (toString m).data ++ [' '] ++ rest) := by
  have hclamp : jsOrDefault (some n) 1000 = n := by
    rw [jsOrDefault]
    exact if_neg (by omega)
  have htrace : (executeQuery acc q ⟨some n, none⟩ t0 t1).2 =
      [addRowLimit q (min n 1000)] := by
    rw [executeQuery_dispatch acc q ⟨some n, none⟩ t0 t1 hv]
    simp [hclamp]
  refine ⟨⟨?_, ?_, ?_, ?_⟩, ?_⟩
  · intro ht1 ht2 hsel
    rw [htrace, addRowLimit]
    simp only [ht1, ht2, hsel]
    simp
  · intro hw
    rw [htrace, addRowLimit]
    by_cases ht : (jsIncludes (strLower (jsTrim q)) (str "top ") ||
        jsIncludes (strLower (jsTrim q)) (str "top(")) = true
    · simp only [ht]
      simp
    · simp only [Bool.not_eq_true] at ht
      simp only [ht, with_not_select _ hw]
      simp
  · intro hor
    rw [htrace, addRowLimit]
    have ht : (jsIncludes (strLower (jsTrim q)) (str "top ") ||
        jsIncludes (strLower (jsTrim q)) (str "top(")) = true := by
      rcases hor with h | h <;> simp [h]
    simp only [ht]
    simp
  · intro h
    exact Nat.min_eq_right (by omega)
  · intro ws sel ws2 rest m hws hsel hws2ne hws2 hrest
    exact jsInsertTopAfterSelect_decomp ws sel ws2 rest m hws hsel hws2ne
      hws2 hrest

/-- C4 witness: SELECT col FROM t with maxRows 50 is dispatched as
SELECT TOP 50 col FROM t, original case preserved. -/
theorem row_limit_rewrite_witness :
    (executeQuery ⟨fun _ => .ok none⟩ (str "SELECT col FROM t")
        ⟨some 50, none⟩ 0 3).2 = [str "SELECT TOP 50 col FROM t"] := by
  have hv : validateReadOnlyQuery (str "SELECT col FROM t") = .ok () := by
    apply validateReadOnlyQuery_ok_of _ (str "select col from t")
    · decide
    · rw [removeComments]
      have a1 : removeLineComments (strLower (jsTrim (str "SELECT col FROM t"))) =
          str "select col from t" := by decide
      rw [a1]
      simp +decide [removeBlockComments, findBlockCommentClose, str]
    · decide
  have h := (row_limit_rewrite ⟨fun _ => .ok none⟩ (str "SELECT col FROM t")
    50 0 3 (by decide) hv).1.1 (by decide) (by decide) (by decide)
  rw [h]
  decide

/-- A concrete plain SELECT accepted by the gatekeeper (shared by
witnesses). -/
theorem select_col_from_t_ok :
    validateReadOnlyQuery (str "SELECT col FROM t") = .ok () := by
  apply validateReadOnlyQuery_ok_of _ (str "select col from t")
  · decide
  · rw [removeComments]
    have a1 : removeLineComments (strLower (jsTrim (str "SELECT col FROM t"))) =
        str "select col from t" := by decide
    rw [a1]
    simp +decide [removeBlockComments, findBlockCommentClose, str]
  · decide

/-- C9: on an allowed query, the executor's outcome always embeds the
execution time t1 - t0 measured from the start reading to the end
reading: the wrapped DatabaseError carries it on accessor failure, the
result record carries it on success, and it is non-negative either
way. -/
theorem executionTime_populated (acc : Accessor) (q : List Char)
    (opts : QueryOptions) (t0 t1 : Nat) (ht : t0 ≤ t1)
    (hv : validateReadOnlyQuery q = .ok ()) :
    (∀ msg,
      acc.run (addRowLimit q (min (jsOrDefault opts.maxRows 1000) 1000)) =
        .error msg →
      (executeQuery acc q opts t0 t1).1 =
        .error (.databaseError ((t1 : Int) - (t0 : Int))
          (databaseErrorMessage ((t1 : Int) - (t0 : Int)) msg)) ∧
      0 ≤ (t1 : Int) - (t0 : Int)) ∧
    (∀ rs,
      acc.run (addRowLimit q (min (jsOrDefault opts.maxRows 1000) 1000)) =
        .ok rs →
      ∃ r, (executeQuery acc q opts t0 t1).1 = .ok r ∧
        r.executionTime = (t1 : Int) - (t0 : Int) ∧ 0 ≤ r.executionTime) := by
  constructor
  · intro msg hmsg
    refine ⟨?_, by omega⟩
    rw [executeQuery]
    simp only [hv, hmsg]
  · intro rs hrs
    rw [executeQuery]
    simp only [hv, hrs]
    cases rs with
    | none =>
        refine ⟨_, rfl, rfl, ?_⟩
        show (0 : Int) ≤ (t1 : Int) - (t0 : Int)
        omega
    | some r =>
        refine ⟨_, rfl, rfl, ?_⟩
        show (0 : Int) ≤ (t1 : Int) - (t0 : Int)
        omega

/-- C9 witness: a mid-flight accessor failure at clock readings 2 and 9
yields a DatabaseError carrying execution time 7. -/
theorem executionTime_populated_witness :
    (executeQuery ⟨fun _ => .error (str "socket hang up")⟩
        (str "SELECT col FROM t") ⟨none, none⟩ 2 9).1 =
      .error (.databaseError 7 (databaseErrorMessage 7 (str "socket hang up"))) ∧
    (0 : Int) ≤ 7 := by
  have h := (executionTime_populated ⟨fun _ => .error (str "socket hang up")⟩
    (str "SELECT col FROM t") ⟨none, none⟩ 2 9 (by omega)
    select_col_from_t_ok).1 (str "socket hang up") rfl
  have e : ((9 : Nat) : Int) - ((2 : Nat) : Int) = (7 : Int) := by decide
  rw [e] at h
  exact h

/-- C10: whenever getQueryStatistics succeeds, the returned statistics
have logicalReads, physicalReads and cpuTime all hard-coded to zero, and
only elapsedTime is the measured t1 - t0. -/
theorem statistics_fields_zero (acc : List Char → Except (List Char) Unit)
    (s st : SessionState) (q : List Char) (t0 t1 : Nat) (stats : QueryStats)
    (h : getQueryStatistics acc s q t0 t1 = (.ok stats, st)) :
    stats.logicalReads = 0 ∧ stats.physicalReads = 0 ∧ stats.cpuTime = 0 ∧
      stats.elapsedTime = (t1 : Int) - (t0 : Int) := by
  rw [getQueryStatistics] at h
  cases hval : validateReadOnlyQuery q with
  | error r =>
      rw [hval] at h
      simp at h
  | ok u =>
      cases u
      rw [hval] at h
      cases hacc : acc q with
      | ok v =>
          cases v
          rw [hacc] at h
          simp only [Prod.mk.injEq, Except.ok.injEq] at h
          obtain ⟨h1, -⟩ := h
          rw [← h1]
          exact ⟨rfl, rfl, rfl, rfl⟩
      | error msg =>
          rw [hacc] at h
          simp at h

/-- C10 witness: a successful statistics call at clock readings 1 and 4
returns zeros for the read/cpu fields and elapsed 3. -/
theorem statistics_fields_zero_witness :
    (⟨0, 0, 0, 3⟩ : QueryStats).logicalReads = 0 ∧
    (⟨0, 0, 0, 3⟩ : QueryStats).physicalReads = 0 ∧
    (⟨0, 0, 0, 3⟩ : QueryStats).cpuTime = 0 ∧
    (⟨0, 0, 0, 3⟩ : QueryStats).elapsedTime = ((4 : Nat) : Int) - ((1 : Nat) : Int) := by
  refine statistics_fields_zero (fun _ => .ok ()) ⟨false, false, false⟩
    ⟨false, false, false⟩ (str "SELECT col FROM t") 1 4 ⟨0, 0, 0, 3⟩ ?_
  rw [getQueryStatistics, select_col_from_t_ok]
  rfl

/-- C5 evaluation: when the inner query fails, explainQuery returns with
SHOWPLAN_ALL still on, and getQueryStatistics returns with STATISTICS IO
and STATISTICS TIME still on — the off toggles are skipped on the failure
path, contradicting the guaranteed-release contract. -/
theorem session_toggle_leak :
    (explainQuery (fun _ => .error (str "connection lost"))
        ⟨false, false, false⟩ (str "SELECT col FROM t")).2.showplanAll = true ∧
    (explainQuery (fun _ => .error (str "connection lost"))
        ⟨false, false, false⟩ (str "SELECT col FROM t")).1.isOk = false ∧
    (getQueryStatistics (fun _ => .error (str "timeout"))
        ⟨false, false, false⟩ (str "SELECT col FROM t") 0 5).2.statisticsIo = true ∧
    (getQueryStatistics (fun _ => .error (str "timeout"))
        ⟨false, false, false⟩ (str "SELECT col FROM t") 0 5).2.statisticsTime = true ∧
    (getQueryStatistics (fun _ => .error (str "timeout"))
        ⟨false, false, false⟩ (str "SELECT col FROM t") 0 5).1.isOk = false := by
  refine ⟨?_, ?_, ?_, ?_, ?_⟩
  · rw [explainQuery, select_col_from_t_ok]
  · rw [explainQuery, select_col_from_t_ok]
    rfl
  · rw [getQueryStatistics, select_col_from_t_ok]
  · rw [getQueryStatistics, select_col_from_t_ok]
  · rw [getQueryStatistics, select_col_from_t_ok]
    rfl

/-- C6 counterexample: a SELECT referencing a column literally named
inserted_at is rejected by the gatekeeper (the claim says it is
allowed). -/
theorem inserted_at_rejected :
    (validateReadOnlyQuery (str "SELECT inserted_at FROM events")).isOk =
      false := by
  rw [validateReadOnlyQuery]
  have h : findForbidden
      (strLower (jsTrim (str "SELECT inserted_at FROM events"))) =
      some (str "insert") := by decide
  simp only [h]
  rfl

/-- C6 amended: the blunt substring filter does block identifiers that
merely contain a denylisted keyword — inserted_at trips `insert` and
updated_at trips `update` — each named in the rejection reason. -/
theorem substring_false_positives :
    validateReadOnlyQuery (str "SELECT inserted_at FROM events") =
      .error (forbiddenMessage (str "insert")) ∧
    validateReadOnlyQuery (str "SELECT updated_at FROM events") =
      .error (forbiddenMessage (str "update")) := by
  constructor
  · rw [validateReadOnlyQuery]
    have h : findForbidden
        (strLower (jsTrim (str "SELECT inserted_at FROM events"))) =
        some (str "insert") := by decide
    simp only [h]
  · rw [validateReadOnlyQuery]
    have h : findForbidden
        (strLower (jsTrim (str "SELECT updated_at FROM events"))) =
        some (str "update") := by decide
    simp only [h]

/-- A catalog whose index facet references a column absent from the column
facet — the section-3 invariant violation. -/
def c1Catalog : Catalog :=
  { lookupResult := [⟨str "dbo", str "widgets", str "VIEW"⟩],
    rowCountResult := .error (str "unused"),
    columnsResult := .ok [⟨str "a", str "int", none, 0, 1, 0, none, none⟩],
    indexesResult := .ok [⟨str "ix", str "ghost", true, false⟩],
    foreignKeysResult := .ok [] }

/-- The schema getTableSchema assembles from c1Catalog. -/
def c1Schema : TableSchema :=
  { table := ⟨str "dbo", str "widgets", str "VIEW", none⟩,
    columns := [⟨str "a", str "int", none, false, true, false, none, none⟩],
    indexes := [⟨str "ix", [str "ghost"], true, false⟩],
    foreignKeys := [] }

/-- C1 counterexample: on catalog data violating the column-reference
invariant, getTableSchema succeeds and returns the inconsistent schema
instead of failing with a SchemaInconsistency error. -/
theorem schema_inconsistency_returned :
    (getTableSchema c1Catalog (str "dbo") (str "widgets")).1 = .ok c1Schema ∧
    schemaConsistent c1Schema = false := by
  constructor
  · have hsplit : splitOnSep (str ", ") commaSpace_ne_nil (str "ghost") =
        [str "ghost"] := by
      simp +decide [splitOnSep, breakOnSep, str]
    have hstep : (getTableSchema c1Catalog (str "dbo") (str "widgets")).1 =
        .ok ⟨⟨str "dbo", str "widgets", str "VIEW", none⟩,
             [⟨str "a", str "int", none, false, true, false, none, none⟩],
             [⟨str "ix",
               splitOnSep (str ", ") commaSpace_ne_nil (str "ghost"),
               true, false⟩],
             []⟩ := rfl
    rw [hstep, hsplit]
    rfl
  · decide

/-- C1 amended: getTableSchema performs no cross-reference check between
the index/foreign-key descriptors and the column list — whenever the
lookup finds the object and the three facet queries succeed, it returns
the facets exactly as mapped from the catalog rows, consistent or not. -/
theorem getTableSchema_no_cross_check (cat : Catalog) (s t : List Char)
    (row : CatalogTableRow) (rest : List CatalogTableRow)
    (cols : List ColumnRow) (idxs : List IndexRow) (fks : List ForeignKeyInfo)
    (hl : cat.lookupResult = row :: rest)
    (hc : cat.columnsResult = .ok cols)
    (hi : cat.indexesResult = .ok idxs)
    (hf : cat.foreignKeysResult = .ok fks) :
    ∃ sch, (getTableSchema cat s t).1 = .ok sch ∧
      sch.columns = cols.map mapColumnRow ∧
      sch.indexes = idxs.map mapIndexRow ∧
      sch.foreignKeys = fks := by
  rw [getTableSchema]
  simp only [hl, hc, hi, hf]
  split
  · split
    · exact ⟨_, rfl, rfl, rfl, rfl⟩
    · exact ⟨_, rfl, rfl, rfl, rfl⟩
  · exact ⟨_, rfl, rfl, rfl, rfl⟩

/-- C1 witness: the no-cross-check theorem applied to the inconsistent
catalog. -/
theorem getTableSchema_no_cross_check_witness :
    ∃ sch, (getTableSchema c1Catalog (str "dbo") (str "widgets")).1 =
        .ok sch ∧
      sch.columns =
        [(⟨str "a", str "int", none, 0, 1, 0, none, none⟩ : ColumnRow)].map
          mapColumnRow ∧
      sch.indexes =
        [(⟨str "ix", str "ghost", true, false⟩ : IndexRow)].map mapIndexRow ∧
      sch.foreignKeys = [] :=
  getTableSchema_no_cross_check c1Catalog (str "dbo") (str "widgets")
    ⟨str "dbo", str "widgets", str "VIEW"⟩ []
    [⟨str "a", str "int", none, 0, 1, 0, none, none⟩]
    [⟨str "ix", str "ghost", true, false⟩] [] rfl rfl rfl rfl

/-- C7: when the existence lookup returns no row, getTableSchema fails
with the not-found error and its query trace is exactly the lookup — no
row-count, column, index or foreign-key query is issued. -/
theorem notfound_short_circuit (cat : Catalog) (s t : List Char)
    (h : cat.lookupResult = []) :
    getTableSchema cat s t =
      (.error (tableNotFoundMessage s t), [CatalogQuery.tableLookup]) := by
  rw [getTableSchema, h]

/-- C7 witness: a catalog with no matching table or view. -/
theorem notfound_short_circuit_witness :
    getTableSchema ⟨[], .error [], .ok [], .ok [], .ok []⟩
        (str "dbo") (str "missing") =
      (.error (tableNotFoundMessage (str "dbo") (str "missing")),
       [CatalogQuery.tableLookup]) :=
  notfound_short_circuit ⟨[], .error [], .ok [], .ok [], .ok []⟩
    (str "dbo") (str "missing") rfl

/-- C8: for a USER_TABLE whose supplementary count query fails, the
failure is swallowed — getTableSchema still succeeds, with rowCount left
unset, after having issued the count query; for a non-USER_TABLE object
(a view) the count query never appears in the trace. -/
theorem rowcount_swallowed (cat : Catalog) (s t : List Char)
    (row : CatalogTableRow) (rest : List CatalogTableRow)
    (cols : List ColumnRow) (idxs : List IndexRow) (fks : List ForeignKeyInfo)
    (hl : cat.lookupResult = row :: rest)
    (hc : cat.columnsResult = .ok cols)
    (hi : cat.indexesResult = .ok idxs)
    (hf : cat.foreignKeysResult = .ok fks) :
    (∀ e, row.type = str "USER_TABLE" → cat.rowCountResult = .error e →
      (getTableSchema cat s t).1 =
        .ok { table := { schema := row.schema, name := row.name,
                         type := row.type, rowCount := none },
              columns := cols.map mapColumnRow,
              indexes := idxs.map mapIndexRow,
              foreignKeys := fks } ∧
      (getTableSchema cat s t).2 =
        [CatalogQuery.tableLookup, CatalogQuery.rowCount,
         CatalogQuery.columnFacet, CatalogQuery.indexFacet,
         CatalogQuery.foreignKeyFacet]) ∧
    (row.type ≠ str "USER_TABLE" →
      (getTableSchema cat s t).2 =
        [CatalogQuery.tableLookup, CatalogQuery.columnFacet,
         CatalogQuery.indexFacet, CatalogQuery.foreignKeyFacet] ∧
      CatalogQuery.rowCount ∉ (getTableSchema cat s t).2) := by
  constructor
  · intro e h1 h2
    rw [getTableSchema]
    simp only [hl, hc, hi, hf, h2]
    rw [if_pos (show (⟨row.schema, row.name, row.type, none⟩ :
      TableInfo).type = str "USER_TABLE" from h1)]
    exact ⟨rfl, rfl⟩
  · intro h1
    rw [getTableSchema]
    simp only [hl, hc, hi, hf]
    rw [if_neg (show ¬ (⟨row.schema, row.name, row.type, none⟩ :
      TableInfo).type = str "USER_TABLE" from h1)]
    refine ⟨rfl, ?_⟩
    show CatalogQuery.rowCount ∉
      [CatalogQuery.tableLookup, CatalogQuery.columnFacet,
       CatalogQuery.indexFacet, CatalogQuery.foreignKeyFacet]
    decide

/-- A USER_TABLE catalog whose count query is denied. -/
def c8Catalog : Catalog :=
  { lookupResult := [⟨str "dbo", str "orders", str "USER_TABLE"⟩],
    rowCountResult := .error (str "permission denied"),
    columnsResult := .ok [],
    indexesResult := .ok [],
    foreignKeysResult := .ok [] }

/-- C8 witness: the swallowing branch evaluated on a concrete denied
count. -/
theorem rowcount_swallowed_witness :
    (getTableSchema c8Catalog (str "dbo") (str "orders")).1 =
      .ok { table := { schema := str "dbo", name := str "orders",
                       type := str "USER_TABLE", rowCount := none },
            columns := [], indexes := [], foreignKeys := [] } ∧
    (getTableSchema c8Catalog (str "dbo") (str "orders")).2 =
      [CatalogQuery.tableLookup, CatalogQuery.rowCount,
       CatalogQuery.columnFacet, CatalogQuery.indexFacet,
       CatalogQuery.foreignKeyFacet] :=
  (rowcount_swallowed c8Catalog (str "dbo") (str "orders")
    ⟨str "dbo", str "orders", str "USER_TABLE"⟩ [] [] [] []
    rfl rfl rfl rfl).1 (str "permission denied") rfl rfl

end MssqlMcp
